import Mathlib

/-!
Verification of the SPDX license-table generator (`update/src/main.rs`).

The generator downloads the SPDX `licenses.json` and `exceptions.json`
documents, classifies every entry, and emits a sorted Rust table
(`src/identifiers.rs`).  We shallowly embed the pure core of
`real_main` (the two table-building closures) together with the
classifier helpers `is_copyleft` and `is_gnu`.

Modelling conventions:
* JSON values (`serde_json::Value`) become the inductive `Json`; an
  object is an association list and `get` is first-match lookup.
* Rust `&str` becomes Lean `String`.  Rust compares and slices strings
  by UTF-8 bytes; for valid UTF-8, byte-lexicographic order coincides
  with code-point order, and all identifiers involved are ASCII, so
  code-point-level operations on `String.data` are a faithful model.
  `str::starts_with` becomes a char-list `isPrefixOf`, `String::len` /
  `String::truncate` become char counts (the strings manipulated are
  ASCII flag names, where bytes = chars).
* The flag field of a record is the literal Rust source fragment the
  generator builds by `push_str` (e.g. `"IS_COPYLEFT | IS_GNU"`), and
  `flagsValue` models how the Rust compiler evaluates that fragment
  against the emitted constants `IS_FSF_LIBRE = 0x1`,
  `IS_OSI_APPROVED = 0x2`, `IS_DEPRECATED = 0x4`, `IS_COPYLEFT = 0x8`,
  `IS_GNU = 0x10`.
* `bail!` / the `?` operator become `Except.error`; the error payloads
  keep only the offending key (the Rust messages also interpolate the
  surrounding structure, which no claim depends on).
* `Vec::sort_by` / `Vec::sort_by_key` (stable sorts) become
  `List.mergeSort` with the corresponding boolean comparison.
-/

namespace Spdx

/-- Shallow embedding of `serde_json::Value`; objects are association
lists, looked up first-match. -/
inductive Json where
  | null
  | bool (b : Bool)
  | num (n : Int)
  | str (s : String)
  | arr (elems : List Json)
  | obj (fields : List (String × Json))

/-- `fn get(m, k)`: return the field `k` of the object `m`, or a
"Malformed JSON" error when it is missing (main.rs lines 36-39). -/
def getField (m : List (String × Json)) (k : String) : Except String Json :=
  match m.lookup k with
  | some v => Except.ok v
  | none => Except.error ("Malformed JSON: lacks " ++ k)

/-- Rust `str::starts_with`: byte-level starts-with, modelled on the
char list (equivalent for valid UTF-8). -/
def strStartsWith (s p : String) : Bool :=
  p.data.isPrefixOf s.data

/-- `fn is_copyleft(license: &str) -> bool` (main.rs lines 43-69). -/
def is_copyleft (license : String) : Bool :=
  strStartsWith license "AGPL-"
    || strStartsWith license "CC-BY-NC-SA-"
    || strStartsWith license "CC-BY-SA-"
    || strStartsWith license "CECILL-"
    || strStartsWith license "CPL-"
    || strStartsWith license "CDDL-"
    || strStartsWith license "EUPL"
    || strStartsWith license "GFDL-"
    || strStartsWith license "GPL-"
    || strStartsWith license "LGPL-"
    || strStartsWith license "MPL-"
    || strStartsWith license "NPL-"
    || strStartsWith license "OSL-"
    || license == "BSD-Protection"
    || license == "MS-PL"
    || license == "MS-RL"
    || license == "Parity-6.0.0"
    || license == "SISSL"
    || license == "xinetd"
    || license == "YPL-1.1"

/-- `fn is_gnu(license: &str) -> bool` (main.rs lines 71-76). -/
def is_gnu (license : String) : Bool :=
  strStartsWith license "AGPL-"
    || strStartsWith license "GFDL-"
    || strStartsWith license "GPL-"
    || strStartsWith license "LGPL-"

/-- `if let Ok(Value::Bool(val)) = get(lic, k) { *val } else { false }`:
an optional upstream boolean, absent or non-boolean treated as false
(main.rs lines 162-178). -/
def flagTrue (m : List (String × Json)) (k : String) : Bool :=
  match getField m k with
  | Except.ok (Json.bool b) => b
  | _ => false

/-- Rust `String::truncate(n)`: keep the first `n` bytes (chars here;
only applied to ASCII strings). -/
def strTruncate (s : String) (n : Nat) : String :=
  String.mk (s.data.take n)

/-- The flag string built by the `push_str` cascade of main.rs lines
160-193: names joined by `" | "`, or `"0x0"` when no flag applies (the
trailing separator is truncated away). -/
def flagsString (lic : List (String × Json)) (id : String) : String :=
  let f := ""
  let f := if flagTrue lic "isDeprecatedLicenseId" then f ++ "IS_DEPRECATED | " else f
  let f := if flagTrue lic "isOsiApproved" then f ++ "IS_OSI_APPROVED | " else f
  let f := if flagTrue lic "isFsfLibre" then f ++ "IS_FSF_LIBRE | " else f
  let f := if is_copyleft id then f ++ "IS_COPYLEFT | " else f
  let f := if is_gnu id then f ++ "IS_GNU | " else f
  if f = "" then "0x0" else strTruncate f (f.length - 3)

/-- Value of one flag constant name in the emitted artifact
(main.rs lines 122-126); `"0x0"` and `"0"` are the literal zeros the
generator emits. -/
def flagConst (s : String) : Nat :=
  if s = "IS_FSF_LIBRE" then 1
  else if s = "IS_OSI_APPROVED" then 2
  else if s = "IS_DEPRECATED" then 4
  else if s = "IS_COPYLEFT" then 8
  else if s = "IS_GNU" then 16
  else 0

/-- Split a char list at every `'|'`. -/
def splitBar : List Char → List (List Char)
  | [] => [[]]
  | c :: cs =>
    if c = '|' then [] :: splitBar cs
    else
      match splitBar cs with
      | [] => [[c]]
      | g :: gs => (c :: g) :: gs

/-- Drop spaces from both ends of a char list. -/
def trimSpaces (cs : List Char) : List Char :=
  ((cs.dropWhile (fun c => c = ' ')).reverse.dropWhile (fun c => c = ' ')).reverse

/-- How the Rust compiler evaluates an emitted flag expression such as
`"IS_COPYLEFT | IS_GNU"`: the bitwise OR of the named constants. -/
def flagsValue (s : String) : Nat :=
  ((splitBar s.data).map (fun cs => flagConst (String.mk (trimSpaces cs)))).foldl
    (fun a b => a ||| b) 0

/-- Processing of one element of the `licenses` array (main.rs lines
148-211): the element must be an object with a string `licenseId`;
flags are computed, the display name falls back to the id when the
`name` field is not a string (`get(lic, "name")?` fails when it is
absent); a `GFDL-` id shorter than 9 chars additionally emits an
`-invariants` record first. -/
def processLicense (lic : Json) : Except String (List (String × String × String)) :=
  match lic with
  | Json.obj m =>
    match getField m "licenseId" with
    | Except.error e => Except.error e
    | Except.ok licId =>
      match licId with
      | Json.str id =>
        let flags := flagsString m id
        match getField m "name" with
        | Except.error e => Except.error e
        | Except.ok n =>
          let full_name :=
            match n with
            | Json.str name => name
            | _ => id
          if strStartsWith id "GFDL-" && decide (id.length < 9) then
            Except.ok [(id ++ "-invariants", full_name, flags), (id, full_name, flags)]
          else
            Except.ok [(id, full_name, flags)]
      | _ => Except.error "Malformed JSON: licenseId is not a string"
  | _ => Except.error "Malformed JSON: license element is not an object"

/-- The loop of main.rs lines 148-211: process the elements in order,
aborting the whole run on the first malformed element. -/
def buildLicensesAux : List Json → Except String (List (String × String × String))
  | [] => Except.ok []
  | lic :: rest =>
    match processLicense lic with
    | Except.error e => Except.error e
    | Except.ok rs =>
      match buildLicensesAux rest with
      | Except.error e => Except.error e
      | Except.ok rest' => Except.ok (rs ++ rest')

/-- Rust byte-lexicographic `≤` on strings (`str::cmp` is byte-wise;
code-point order coincides for valid UTF-8). -/
def charListLe : List Char → List Char → Bool
  | [], _ => true
  | _ :: _, [] => false
  | a :: as, b :: bs =>
    if a.toNat < b.toNat then true
    else if b.toNat < a.toNat then false
    else charListLe as bs

/-- `a.cmp(&b).is_le()` on Rust strings. -/
def rustStrLe (a b : String) : Bool :=
  charListLe a.data b.data

/-- The license-table construction of main.rs lines 147-218: process
every element, append the `NOASSERTION` sentinel, and stable-sort by
id (`v.sort_by(|a, b| a.0.cmp(&b.0))`). -/
def buildLicenseTable (licenses : List Json) :
    Except String (List (String × String × String)) :=
  match buildLicensesAux licenses with
  | Except.error e => Except.error e
  | Except.ok recs =>
    Except.ok
      ((recs ++ [("NOASSERTION", "NOASSERTION", "0x0")]).mergeSort
        (fun a b => rustStrLe a.1 b.1))

/-- Processing of one element of the `exceptions` array (main.rs lines
261-292): the element must be an object with a string
`licenseExceptionId`; flags are `IS_DEPRECATED` when the optional
boolean is present and true, else the literal `0`. -/
def processException (exc : Json) : Except String (String × String) :=
  match exc with
  | Json.obj m =>
    match getField m "licenseExceptionId" with
    | Except.error e => Except.error e
    | Except.ok eid =>
      match eid with
      | Json.str s =>
        let flags :=
          match getField m "isDeprecatedLicenseId" with
          | Except.ok (Json.bool val) => if val then "IS_DEPRECATED" else "0"
          | _ => "0"
        Except.ok (s, flags)
      | _ => Except.error "Malformed JSON: licenseExceptionId is not a string"
  | _ => Except.error "Malformed JSON: exception element is not an object"

/-- The loop of main.rs lines 261-292. -/
def buildExceptionsAux : List Json → Except String (List (String × String))
  | [] => Except.ok []
  | exc :: rest =>
    match processException exc with
    | Except.error e => Except.error e
    | Except.ok r =>
      match buildExceptionsAux rest with
      | Except.error e => Except.error e
      | Except.ok rest' => Except.ok (r :: rest')

/-- The exception-table construction of main.rs lines 252-295: process
every element, stable-sort by id (`v.sort_by_key(|v| v.0)`); no
synthetic entries, no sentinel. -/
def buildExceptionTable (exceptions : List Json) :
    Except String (List (String × String)) :=
  match buildExceptionsAux exceptions with
  | Except.error e => Except.error e
  | Except.ok recs =>
    Except.ok (recs.mergeSort (fun a b => rustStrLe a.1 b.1))

/-- An element of the `licenses` array that the builder rejects: not an
object, or `licenseId` absent or not a string. -/
def badLicenseElement (lic : Json) : Bool :=
  match lic with
  | Json.obj m =>
    match List.lookup "licenseId" m with
    | some (Json.str _) => false
    | _ => true
  | _ => true

/-! ### Helper lemmas -/

theorem flagsValue_flagsString (m : List (String × Json)) (id : String) :
    flagsValue (flagsString m id) =
      ((if flagTrue m "isDeprecatedLicenseId" then 4 else 0) : Nat) |||
      (if flagTrue m "isOsiApproved" then 2 else 0) |||
      (if flagTrue m "isFsfLibre" then 1 else 0) |||
      (if is_copyleft id then 8 else 0) |||
      (if is_gnu id then 16 else 0) := by
  cases hd : flagTrue m "isDeprecatedLicenseId" <;>
    cases ho : flagTrue m "isOsiApproved" <;>
      cases hf : flagTrue m "isFsfLibre" <;>
        cases hc : is_copyleft id <;>
          cases hg : is_gnu id <;>
            simp only [flagsString, hd, ho, hf, hc, hg, if_true, if_false] <;> decide

theorem gnu_le_copyleft (id : String) (h : is_gnu id = true) : is_copyleft id = true := by
  simp only [is_gnu, Bool.or_eq_true] at h
  rcases h with ((h | h) | h) | h <;> simp [is_copyleft, h]

theorem charListLe_total (as : List Char) :
    ∀ bs, (charListLe as bs || charListLe bs as) = true := by
  induction as with
  | nil => intro bs; simp [charListLe]
  | cons a as ih =>
    intro bs
    cases bs with
    | nil => simp [charListLe]
    | cons b bs =>
      simp only [charListLe]
      by_cases hab : a.toNat < b.toNat <;> by_cases hba : b.toNat < a.toNat <;>
        simp [hab, hba] <;>
          first
            | omega
            | exact Bool.or_eq_true _ _ |>.mp (ih bs)

theorem charListLe_trans (as : List Char) :
    ∀ bs cs, charListLe as bs = true → charListLe bs cs = true → charListLe as cs = true := by
  induction as with
  | nil => intro bs cs _ _; rfl
  | cons a as ih =>
    intro bs cs h1 h2
    cases bs with
    | nil => simp [charListLe] at h1
    | cons b bs =>
      cases cs with
      | nil => simp [charListLe] at h2
      | cons c cs =>
        simp only [charListLe] at h1 h2 ⊢
        by_cases hab : a.toNat < b.toNat <;> by_cases hba : b.toNat < a.toNat <;>
          by_cases hbc : b.toNat < c.toNat <;> by_cases hcb : c.toNat < b.toNat <;>
            by_cases hac : a.toNat < c.toNat <;> by_cases hca : c.toNat < a.toNat <;>
              simp [hab, hba, hbc, hcb, hac, hca] at h1 h2 ⊢ <;>
                first
                  | omega
                  | exact ih bs cs h1 h2

/-! ### Claims -/

/-- C2: for every license element, the flags value emitted for it (the
flag expression evaluated against the emitted constants) is the bitwise
OR of exactly the bits whose predicate holds — `IS_DEPRECATED` (0x4)
iff `isDeprecatedLicenseId` is present, boolean and true,
`IS_OSI_APPROVED` (0x2) iff `isOsiApproved` is present, boolean and
true, `IS_FSF_LIBRE` (0x1) iff `isFsfLibre` is present, boolean and
true, `IS_COPYLEFT` (0x8) iff `is_copyleft id`, `IS_GNU` (0x10) iff
`is_gnu id` — and no bit outside the low five is ever set. -/
theorem C2_flags_exact_or (m : List (String × Json)) (id : String) :
    flagsValue (flagsString m id) =
      ((if flagTrue m "isDeprecatedLicenseId" then 4 else 0) : Nat) |||
      (if flagTrue m "isOsiApproved" then 2 else 0) |||
      (if flagTrue m "isFsfLibre" then 1 else 0) |||
      (if is_copyleft id then 8 else 0) |||
      (if is_gnu id then 16 else 0) ∧
    flagsValue (flagsString m id) < 32 := by
  refine ⟨flagsValue_flagsString m id, ?_⟩
  rw [flagsValue_flagsString]
  have h32 : (32 : Nat) = 2 ^ 5 := by norm_num
  rw [h32]
  apply Nat.or_lt_two_pow _ (by split <;> norm_num)
  apply Nat.or_lt_two_pow _ (by split <;> norm_num)
  apply Nat.or_lt_two_pow _ (by split <;> norm_num)
  apply Nat.or_lt_two_pow (by split <;> norm_num) (by split <;> norm_num)

/-- C3: `is_copyleft id` holds exactly when `id` starts with one of the
thirteen copyleft prefixes or equals one of the seven exact-match
identifiers; in particular it holds for `GPL-3.0-only`, `AGPL-3.0` and
`MS-PL` and fails for `MIT`. -/
theorem C3_is_copyleft_iff :
    (∀ id : String, is_copyleft id = true ↔
      (strStartsWith id "AGPL-" = true ∨
       strStartsWith id "CC-BY-NC-SA-" = true ∨
       strStartsWith id "CC-BY-SA-" = true ∨
       strStartsWith id "CECILL-" = true ∨
       strStartsWith id "CPL-" = true ∨
       strStartsWith id "CDDL-" = true ∨
       strStartsWith id "EUPL" = true ∨
       strStartsWith id "GFDL-" = true ∨
       strStartsWith id "GPL-" = true ∨
       strStartsWith id "LGPL-" = true ∨
       strStartsWith id "MPL-" = true ∨
       strStartsWith id "NPL-" = true ∨
       strStartsWith id "OSL-" = true ∨
       id = "BSD-Protection" ∨ id = "MS-PL" ∨ id = "MS-RL" ∨
       id = "Parity-6.0.0" ∨ id = "SISSL" ∨ id = "xinetd" ∨
       id = "YPL-1.1")) ∧
    is_copyleft "GPL-3.0-only" = true ∧
    is_copyleft "AGPL-3.0" = true ∧
    is_copyleft "MS-PL" = true ∧
    is_copyleft "MIT" = false := by
  refine ⟨fun id => ?_, by decide, by decide, by decide, by decide⟩
  simp only [is_copyleft, Bool.or_eq_true, beq_iff_eq]
  tauto

/-- C10: every GNU-classified identifier is also copyleft-classified
(the four GNU prefixes are all copyleft prefixes), and consequently any
emitted license flags value with the `IS_GNU` bit (0x10) set also has
the `IS_COPYLEFT` bit (0x8) set. -/
theorem C10_gnu_implies_copyleft :
    (∀ id : String, is_gnu id = true → is_copyleft id = true) ∧
    (∀ (m : List (String × Json)) (id : String),
      flagsValue (flagsString m id) &&& 16 ≠ 0 →
      flagsValue (flagsString m id) &&& 8 ≠ 0) := by
  refine ⟨gnu_le_copyleft, fun m id hbit => ?_⟩
  rw [flagsValue_flagsString] at hbit ⊢
  cases hg : is_gnu id with
  | false =>
    exfalso
    apply hbit
    cases flagTrue m "isDeprecatedLicenseId" <;>
      cases flagTrue m "isOsiApproved" <;>
        cases flagTrue m "isFsfLibre" <;>
          cases is_copyleft id <;> simp [hg] <;> decide
  | true =>
    rw [gnu_le_copyleft id hg]
    cases flagTrue m "isDeprecatedLicenseId" <;>
      cases flagTrue m "isOsiApproved" <;>
        cases flagTrue m "isFsfLibre" <;> simp [hg]

/-- Witness for C10 at the concrete identifier `AGPL-3.0` (a license
object with no optional booleans). -/
theorem C10_gnu_implies_copyleft_witness :
    is_copyleft "AGPL-3.0" = true ∧ flagsValue (flagsString [] "AGPL-3.0") &&& 8 ≠ 0 :=
  ⟨C10_gnu_implies_copyleft.1 "AGPL-3.0" (by decide),
   C10_gnu_implies_copyleft.2 [] "AGPL-3.0" (by decide)⟩

/-- C1 counterexample: a license element whose `name` field is absent
makes the whole run fail (`get(lic, "name")?` propagates the error)
instead of falling back to the id as the claim states. -/
theorem C1_counterexample :
    buildLicenseTable [Json.obj [("licenseId", Json.str "Zlib")]] =
      Except.error "Malformed JSON: lacks name" := rfl

/-- C1 (amended): the record's display name is the `name` field when it
is present and a string; when it is present but not a string the
display name falls back to the id; when it is absent the run fails
with a schema-violation error (no fallback). -/
theorem C1_display_name_amended (m : List (String × Json)) (id : String)
    (hid : List.lookup "licenseId" m = some (Json.str id)) :
    (List.lookup "name" m = none →
      processLicense (Json.obj m) = Except.error "Malformed JSON: lacks name") ∧
    (∀ s, List.lookup "name" m = some (Json.str s) →
      ∀ rs, processLicense (Json.obj m) = Except.ok rs →
        ∀ r ∈ rs, r.2.1 = s) ∧
    (∀ j, List.lookup "name" m = some j → (∀ s, j ≠ Json.str s) →
      ∀ rs, processLicense (Json.obj m) = Except.ok rs →
        ∀ r ∈ rs, r.2.1 = id) := by
  refine ⟨?_, ?_, ?_⟩
  · intro hn
    simp [processLicense, getField, hid, hn]
  · intro s hn rs hok r hr
    simp only [processLicense, getField, hid, hn] at hok
    split at hok <;>
      (simp only [Except.ok.injEq] at hok; subst hok;
       simp only [List.mem_cons, List.not_mem_nil, or_false] at hr) <;>
      rcases hr with rfl | rfl <;> rfl
  · intro j hn hjs rs hok r hr
    cases j with
    | str s => exact absurd rfl (hjs s)
    | null =>
      simp only [processLicense, getField, hid, hn] at hok
      split at hok <;>
        (simp only [Except.ok.injEq] at hok; subst hok;
         simp only [List.mem_cons, List.not_mem_nil, or_false] at hr) <;>
        rcases hr with rfl | rfl <;> rfl
    | bool b =>
      simp only [processLicense, getField, hid, hn] at hok
      split at hok <;>
        (simp only [Except.ok.injEq] at hok; subst hok;
         simp only [List.mem_cons, List.not_mem_nil, or_false] at hr) <;>
        rcases hr with rfl | rfl <;> rfl
    | num n =>
      simp only [processLicense, getField, hid, hn] at hok
      split at hok <;>
        (simp only [Except.ok.injEq] at hok; subst hok;
         simp only [List.mem_cons, List.not_mem_nil, or_false] at hr) <;>
        rcases hr with rfl | rfl <;> rfl
    | arr xs =>
      simp only [processLicense, getField, hid, hn] at hok
      split at hok <;>
        (simp only [Except.ok.injEq] at hok; subst hok;
         simp only [List.mem_cons, List.not_mem_nil, or_false] at hr) <;>
        rcases hr with rfl | rfl <;> rfl
    | obj fs =>
      simp only [processLicense, getField, hid, hn] at hok
      split at hok <;>
        (simp only [Except.ok.injEq] at hok; subst hok;
         simp only [List.mem_cons, List.not_mem_nil, or_false] at hr) <;>
        rcases hr with rfl | rfl <;> rfl

/-- Witness for the amended C1: an element lacking `name` fails, and an
element with a string `name` gets it as display name. -/
theorem C1_display_name_amended_witness :
    processLicense (Json.obj [("licenseId", Json.str "MIT")]) =
      Except.error "Malformed JSON: lacks name" ∧
    ("MS-PL", "Microsoft Public License", "IS_COPYLEFT").2.1 = "Microsoft Public License" :=
  ⟨(C1_display_name_amended [("licenseId", Json.str "MIT")] "MIT" rfl).1 rfl,
   (C1_display_name_amended
      [("licenseId", Json.str "MS-PL"), ("name", Json.str "Microsoft Public License")]
      "MS-PL" rfl).2.1 "Microsoft Public License" rfl
      [("MS-PL", "Microsoft Public License", "IS_COPYLEFT")] rfl _ (List.Mem.head _)⟩

/-- C4: a license element whose id starts with `GFDL-` and is shorter
than 9 characters yields exactly two records: the synthetic
`<id>-invariants` record immediately followed by the original, with
the same display name and the same flag string; any other id yields
exactly the single original record. -/
theorem C4_gfdl_invariants (m : List (String × Json)) (id : String)
    (rs : List (String × String × String))
    (hid : List.lookup "licenseId" m = some (Json.str id))
    (hok : processLicense (Json.obj m) = Except.ok rs) :
    (strStartsWith id "GFDL-" = true ∧ id.length < 9 →
      ∃ nm fl, rs = [(id ++ "-invariants", nm, fl), (id, nm, fl)]) ∧
    (¬ (strStartsWith id "GFDL-" = true ∧ id.length < 9) →
      ∃ nm fl, rs = [(id, nm, fl)]) := by
  simp only [processLicense, getField, hid] at hok
  cases hn : List.lookup "name" m with
  | none => rw [hn] at hok; simp at hok
  | some n =>
    simp only [hn] at hok
    by_cases hg : strStartsWith id "GFDL-" = true ∧ id.length < 9
    · rw [if_pos (by simp [hg.1, hg.2])] at hok
      simp only [Except.ok.injEq] at hok
      exact ⟨fun _ => ⟨_, _, hok.symm⟩, fun h => absurd hg h⟩
    · rw [if_neg (by simpa using hg)] at hok
      simp only [Except.ok.injEq] at hok
      exact ⟨fun h => absurd h hg, fun _ => ⟨_, _, hok.symm⟩⟩

/-- Witness for C4: `GFDL-1.3` (length 8) produces the synthetic pair,
`GFDL-1.3-or-later` (length 17) produces a single record. -/
theorem C4_gfdl_invariants_witness :
    (∃ nm fl,
      [("GFDL-1.3-invariants", "GNU Free Documentation License v1.3", "IS_COPYLEFT | IS_GNU"),
       ("GFDL-1.3", "GNU Free Documentation License v1.3", "IS_COPYLEFT | IS_GNU")] =
        [("GFDL-1.3" ++ "-invariants", nm, fl), ("GFDL-1.3", nm, fl)]) ∧
    (∃ nm fl,
      [("GFDL-1.3-or-later", "GNU Free Documentation License v1.3 or later",
        "IS_COPYLEFT | IS_GNU")] = [("GFDL-1.3-or-later", nm, fl)]) :=
  ⟨(C4_gfdl_invariants
      [("licenseId", Json.str "GFDL-1.3"),
       ("name", Json.str "GNU Free Documentation License v1.3")] "GFDL-1.3"
      [("GFDL-1.3-invariants", "GNU Free Documentation License v1.3", "IS_COPYLEFT | IS_GNU"),
       ("GFDL-1.3", "GNU Free Documentation License v1.3", "IS_COPYLEFT | IS_GNU")]
      rfl rfl).1 ⟨by decide, by decide⟩,
   (C4_gfdl_invariants
      [("licenseId", Json.str "GFDL-1.3-or-later"),
       ("name", Json.str "GNU Free Documentation License v1.3 or later")] "GFDL-1.3-or-later"
      [("GFDL-1.3-or-later", "GNU Free Documentation License v1.3 or later",
        "IS_COPYLEFT | IS_GNU")]
      rfl rfl).2 (by decide)⟩

/-- C5: every successfully built license table contains the
`NOASSERTION` sentinel record, whose display name is `NOASSERTION` and
whose flag expression evaluates to 0x0. -/
theorem C5_noassertion_sentinel (licenses : List Json)
    (t : List (String × String × String))
    (h : buildLicenseTable licenses = Except.ok t) :
    ("NOASSERTION", "NOASSERTION", "0x0") ∈ t ∧ flagsValue "0x0" = 0 := by
  refine ⟨?_, by decide⟩
  unfold buildLicenseTable at h
  cases haux : buildLicensesAux licenses with
  | error e => rw [haux] at h; simp at h
  | ok recs =>
    rw [haux] at h
    simp only [Except.ok.injEq] at h
    subst h
    rw [List.mem_mergeSort]
    exact List.mem_append_right _ (List.mem_singleton.mpr rfl)

/-- Witness for C5 at the empty licenses array. -/
theorem C5_noassertion_sentinel_witness :
    ("NOASSERTION", "NOASSERTION", "0x0") ∈
      [("NOASSERTION", "NOASSERTION", "0x0")] ∧ flagsValue "0x0" = 0 :=
  C5_noassertion_sentinel [] [("NOASSERTION", "NOASSERTION", "0x0")]
    (by simp [buildLicenseTable, buildLicensesAux])

/-- C6: both successfully built tables are sorted ascending by id in
byte-lexicographic order (modelled by `rustStrLe`). -/
theorem C6_tables_sorted (licenses exceptions : List Json)
    (t : List (String × String × String)) (e : List (String × String))
    (ht : buildLicenseTable licenses = Except.ok t)
    (he : buildExceptionTable exceptions = Except.ok e) :
    List.Pairwise (fun a b => rustStrLe a.1 b.1 = true) t ∧
    List.Pairwise (fun a b => rustStrLe a.1 b.1 = true) e := by
  constructor
  · unfold buildLicenseTable at ht
    cases haux : buildLicensesAux licenses with
    | error er => rw [haux] at ht; simp at ht
    | ok recs =>
      rw [haux] at ht
      simp only [Except.ok.injEq] at ht
      subst ht
      exact @List.sorted_mergeSort (String × String × String)
        (fun a b => rustStrLe a.1 b.1)
        (fun a b c h1 h2 => charListLe_trans _ _ _ h1 h2)
        (fun a b => charListLe_total _ _) _
  · unfold buildExceptionTable at he
    cases haux : buildExceptionsAux exceptions with
    | error er => rw [haux] at he; simp at he
    | ok recs =>
      rw [haux] at he
      simp only [Except.ok.injEq] at he
      subst he
      exact @List.sorted_mergeSort (String × String)
        (fun a b => rustStrLe a.1 b.1)
        (fun a b c h1 h2 => charListLe_trans _ _ _ h1 h2)
        (fun a b => charListLe_total _ _) _

/-- Witness for C6 at the empty input documents. -/
theorem C6_tables_sorted_witness :
    List.Pairwise (fun (a b : String × String × String) => rustStrLe a.1 b.1 = true)
      [("NOASSERTION", "NOASSERTION", "0x0")] ∧
    List.Pairwise (fun (a b : String × String) => rustStrLe a.1 b.1 = true)
      ([] : List (String × String)) :=
  C6_tables_sorted [] [] _ _
    (by simp [buildLicenseTable, buildLicensesAux])
    (by simp [buildExceptionTable, buildExceptionsAux])

/-- C7 counterexample: the builder never deduplicates, so two upstream
elements with the same `licenseId` survive into the output table,
violating the pairwise-distinct-ids claim. -/
theorem C7_counterexample :
    buildLicenseTable
        [Json.obj [("licenseId", Json.str "MIT"), ("name", Json.str "MIT License")],
         Json.obj [("licenseId", Json.str "MIT"), ("name", Json.str "MIT License")]] =
      Except.ok [("MIT", "MIT License", "0x0"), ("MIT", "MIT License", "0x0"),
                 ("NOASSERTION", "NOASSERTION", "0x0")] ∧
    ¬ (([("MIT", "MIT License", "0x0"), ("MIT", "MIT License", "0x0"),
         ("NOASSERTION", "NOASSERTION", "0x0")].map (fun r => r.1)).Nodup) := by
  constructor
  · have h1 : buildLicensesAux
        [Json.obj [("licenseId", Json.str "MIT"), ("name", Json.str "MIT License")],
         Json.obj [("licenseId", Json.str "MIT"), ("name", Json.str "MIT License")]] =
        Except.ok [("MIT", "MIT License", "0x0"), ("MIT", "MIT License", "0x0")] := rfl
    simp [buildLicenseTable, h1, List.mergeSort, List.splitInTwo, List.splitAt,
      List.splitAt.go, List.merge, rustStrLe, charListLe]
  · decide

/-- C7 (amended): the constructed license table has pairwise-distinct
ids provided the pre-sort collection (upstream records, synthetic
`-invariants` records, and the `NOASSERTION` sentinel) already has
pairwise-distinct ids — sorting introduces no duplicates; the builder
itself never deduplicates colliding upstream ids. -/
theorem C7_unique_ids_amended (licenses : List Json)
    (recs t : List (String × String × String))
    (haux : buildLicensesAux licenses = Except.ok recs)
    (hnd : ((recs ++ [("NOASSERTION", "NOASSERTION", "0x0")]).map (fun r => r.1)).Nodup)
    (ht : buildLicenseTable licenses = Except.ok t) :
    (t.map (fun r => r.1)).Nodup := by
  unfold buildLicenseTable at ht
  rw [haux] at ht
  simp only [Except.ok.injEq] at ht
  subst ht
  have hperm :=
    (List.mergeSort_perm (recs ++ [("NOASSERTION", "NOASSERTION", "0x0")])
      (fun a b => rustStrLe a.1 b.1)).map (fun r => r.1)
  exact hperm.nodup_iff.mpr hnd

/-- Witness for the amended C7 at a single-element input. -/
theorem C7_unique_ids_amended_witness :
    (([("MIT", "MIT License", "0x0"), ("NOASSERTION", "NOASSERTION", "0x0")].map
      (fun r => r.1)).Nodup) :=
  C7_unique_ids_amended
    [Json.obj [("licenseId", Json.str "MIT"), ("name", Json.str "MIT License")]]
    [("MIT", "MIT License", "0x0")]
    [("MIT", "MIT License", "0x0"), ("NOASSERTION", "NOASSERTION", "0x0")]
    rfl (by decide)
    (by
      have h1 : buildLicensesAux
          [Json.obj [("licenseId", Json.str "MIT"), ("name", Json.str "MIT License")]] =
          Except.ok [("MIT", "MIT License", "0x0")] := rfl
      simp [buildLicenseTable, h1, List.mergeSort, List.splitInTwo, List.splitAt,
        List.splitAt.go, List.merge, rustStrLe, charListLe])

/-- C8: every exception record's flag expression evaluates to exactly
0x4 (`IS_DEPRECATED`) when `isDeprecatedLicenseId` is present, boolean
and true, and exactly 0 otherwise; the copyleft (0x8) and GNU (0x10)
bits are never set. -/
theorem C8_exception_flags (m : List (String × Json)) (s fl : String)
    (hok : processException (Json.obj m) = Except.ok (s, fl)) :
    (flagsValue fl = if flagTrue m "isDeprecatedLicenseId" then 4 else 0) ∧
    flagsValue fl &&& 8 = 0 ∧ flagsValue fl &&& 16 = 0 := by
  simp only [processException, getField] at hok
  cases hid : List.lookup "licenseExceptionId" m with
  | none => rw [hid] at hok; simp at hok
  | some v =>
    simp only [hid] at hok
    cases v with
    | str s0 =>
      simp only [Except.ok.injEq, Prod.mk.injEq] at hok
      obtain ⟨-, hfl⟩ := hok
      cases hdep : List.lookup "isDeprecatedLicenseId" m with
      | none =>
        simp only [flagTrue, getField, hdep] at hfl ⊢
        subst hfl
        exact ⟨by decide, by decide, by decide⟩
      | some w =>
        cases w <;> simp only [flagTrue, getField, hdep] at hfl ⊢ <;>
          first
            | (subst hfl; exact ⟨by decide, by decide, by decide⟩)
            | (cases hfl with
               | _ =>
                 rename_i b
                 cases b <;> simp_all <;> decide)
    | null => simp at hok
    | bool b => simp at hok
    | num n => simp at hok
    | arr xs => simp at hok
    | obj fs => simp at hok

/-- Witness for C8: a deprecated and a non-deprecated exception. -/
theorem C8_exception_flags_witness :
    (flagsValue "IS_DEPRECATED" =
      if flagTrue [("licenseExceptionId", Json.str "Nokia-Qt-exception-1.1"),
                   ("isDeprecatedLicenseId", Json.bool true)] "isDeprecatedLicenseId"
      then 4 else 0) ∧
    flagsValue "IS_DEPRECATED" &&& 8 = 0 ∧ flagsValue "IS_DEPRECATED" &&& 16 = 0 :=
  C8_exception_flags
    [("licenseExceptionId", Json.str "Nokia-Qt-exception-1.1"),
     ("isDeprecatedLicenseId", Json.bool true)]
    "Nokia-Qt-exception-1.1" "IS_DEPRECATED" rfl

theorem processLicense_error_of_bad (lic : Json)
    (hbad : badLicenseElement lic = true) :
    ∃ e, processLicense lic = Except.error e := by
  cases lic with
  | obj m =>
    simp only [processLicense, getField]
    cases hlk : List.lookup "licenseId" m with
    | none => exact ⟨_, rfl⟩
    | some v =>
      cases v <;> simp only [badLicenseElement, hlk] at hbad <;>
        first
          | exact ⟨_, rfl⟩
          | simp at hbad
  | null => exact ⟨_, rfl⟩
  | bool b => exact ⟨_, rfl⟩
  | num n => exact ⟨_, rfl⟩
  | str s => exact ⟨_, rfl⟩
  | arr xs => exact ⟨_, rfl⟩

/-- C9: if any element of the licenses array is not an object, or its
`licenseId` is absent or not a string, the whole run fails with a
schema-violation error and no license table is produced. -/
theorem C9_malformed_aborts (licenses : List Json) (lic : Json)
    (hmem : lic ∈ licenses) (hbad : badLicenseElement lic = true) :
    ∃ e, buildLicenseTable licenses = Except.error e := by
  have haux : ∃ e, buildLicensesAux licenses = Except.error e := by
    induction hmem with
    | head as =>
      obtain ⟨e, hpe⟩ := processLicense_error_of_bad lic hbad
      exact ⟨e, by simp [buildLicensesAux, hpe]⟩
    | tail b hm ih =>
      obtain ⟨e, he⟩ := ih
      cases hpb : processLicense b with
      | error e2 => exact ⟨e2, by simp [buildLicensesAux, hpb]⟩
      | ok rs => exact ⟨e, by simp [buildLicensesAux, hpb, he]⟩
  obtain ⟨e, he⟩ := haux
  exact ⟨e, by simp [buildLicenseTable, he]⟩

/-- Witness for C9: a licenses array containing a non-object element. -/
theorem C9_malformed_aborts_witness :
    ∃ e, buildLicenseTable [Json.num 3] = Except.error e :=
  C9_malformed_aborts [Json.num 3] (Json.num 3) (List.Mem.head _) rfl

end Spdx
